import Mathlib

/-!
# Static reverse-mode autodiff layers: shallow embedding

Shallow embedding of `src/include/adiff.hpp`: fixed-dimension layer types
(`Linear`, `Tanh`, `Sum`), each with a Root and a Chained backward variant,
and the chain composition that assembles the Jacobian of a layer chain by
delegating `backward` calls through parent references.

Modelling choices:
* `NUM` (`double` in the source) is modelled by `ℚ`; all the claimed
  identities are exact algebraic identities of the arithmetic the source
  performs, and `ℚ` keeps every definition computable.
* The elementwise transcendental `tanh` belongs to the external
  linear-algebra substrate (Eigen); it is modelled as an explicit function
  parameter `th : NUM → NUM` threaded through the definitions that use it.
* Eigen's fixed-size vectors/matrices are `Fin n → NUM` and
  `Matrix (Fin m) (Fin n) NUM`; `asDiagonal` is `Matrix.diagonal`,
  `Ones()` is the constant-one matrix, `sum()` is `∑ i, x i`.
* The mutable member state of each C++ class is a structure; a member
  function that assigns to members is translated to a function returning
  the new state (`forward` returns `output × new state`); `backward`
  bodies contain no assignment in the source, so they are plain functions
  of the state.
* Fresh C++ objects have default-initialized (unspecified) Eigen members;
  a freshly constructed state is modelled by a constructor taking the
  unspecified initial contents as an argument.
-/

namespace adiff

/-- `using NUM = double;` — modelled by `ℚ` (see header comment). -/
abbrev NUM := ℚ

/-! ## LINEAR -/

/-- Member state of `LinearBase<n, m>`: weight matrix `W_` (`m×n`) and bias
`b_` (`m`). -/
structure LinearBase (n m : ℕ) where
  W_ : Matrix (Fin m) (Fin n) NUM
  b_ : Fin m → NUM

/-- `LinearBase::forward`: `return W_ * x + b_;` — no member is assigned,
so the state component of the result is the unchanged state. -/
def LinearBase.forward (l : LinearBase n m) (x : Fin n → NUM) :
    (Fin m → NUM) × LinearBase n m :=
  (l.W_.mulVec x + l.b_, l)

/-- `LinearBase::setWeights`: `W_ = W; b_ = b;`. -/
def LinearBase.setWeights (l : LinearBase n m) (W : Matrix (Fin m) (Fin n) NUM)
    (b : Fin m → NUM) : LinearBase n m :=
  { l with W_ := W, b_ := b }

/-- `Linear<n, m, Layer>::backward` (Chained specialization):
`return this->W_ * parent_.backward();` with the parent's accumulated
Jacobian passed in. -/
def Linear.chainedBackward (l : LinearBase n m)
    (parentBack : Matrix (Fin n) (Fin r) NUM) : Matrix (Fin m) (Fin r) NUM :=
  l.W_ * parentBack

/-- `Linear<n, m, void>::backward` (Root specialization): `return this->W_;`. -/
def Linear.rootBackward (l : LinearBase n m) : Matrix (Fin m) (Fin n) NUM :=
  l.W_

/-! ## TANH -/

/-- Member state of `TanhBase<n>`: the cached input `x_`. -/
structure TanhBase (n : ℕ) where
  x_ : Fin n → NUM

/-- `TanhBase::forward`: `x_ = x; return x_.array().tanh();` — the cached
input is overwritten with `x` and the output is `tanh` applied elementwise. -/
def TanhBase.forward (th : NUM → NUM) (_l : TanhBase n) (x : Fin n → NUM) :
    (Fin n → NUM) × TanhBase n :=
  (fun i => th (x i), { x_ := x })

/-- A freshly constructed `TanhBase` object: its Eigen member `x_` is
default-initialized, i.e. holds unspecified contents `g`. -/
def TanhBase.fresh (g : Fin n → NUM) : TanhBase n :=
  { x_ := g }

/-- The expression `(1 - this->x_.array().tanh().pow(2)).matrix().asDiagonal()`
appearing in both `Tanh::backward` bodies. -/
def tanhLocalDeriv (th : NUM → NUM) (l : TanhBase n) :
    Matrix (Fin n) (Fin n) NUM :=
  Matrix.diagonal fun i => 1 - th (l.x_ i) ^ 2

/-- `Tanh<n, Layer>::backward` (Chained specialization):
`return tmp * parent_.backward();` where `tmp` is the diagonal local
derivative. -/
def Tanh.chainedBackward (th : NUM → NUM) (l : TanhBase n)
    (parentBack : Matrix (Fin n) (Fin r) NUM) : Matrix (Fin n) (Fin r) NUM :=
  tanhLocalDeriv th l * parentBack

/-- `Tanh<n, void>::backward` (Root specialization):
`return (1 - this->x_.array().tanh().pow(2)).matrix().asDiagonal();`. -/
def Tanh.rootBackward (th : NUM → NUM) (l : TanhBase n) :
    Matrix (Fin n) (Fin n) NUM :=
  tanhLocalDeriv th l

/-! ## SUM -/

/-- Member state of `SumBase<n>`: the class has no data members. -/
structure SumBase (n : ℕ) where

/-- `SumBase::forward`: `return x.sum();` — reads `x` only, assigns nothing. -/
def SumBase.forward (_l : SumBase n) (x : Fin n → NUM) : NUM :=
  ∑ i, x i

/-- `Eigen::Matrix<NUM, 1, n>::Ones()` — the `1×n` all-ones row. -/
def onesRow (n : ℕ) : Matrix (Fin 1) (Fin n) NUM :=
  Matrix.of fun _ _ => 1

/-- `Sum<n, Layer>::backward` (Chained specialization):
`return Eigen::Matrix<NUM, 1, n>::Ones() * parent_.backward();`. -/
def Sum.chainedBackward (_l : SumBase n)
    (parentBack : Matrix (Fin n) (Fin r) NUM) : Matrix (Fin 1) (Fin r) NUM :=
  onesRow n * parentBack

/-- `Sum<n, void>::backward` (Root specialization): `return Jacobian::Ones();`. -/
def Sum.rootBackward (_l : SumBase n) : Matrix (Fin 1) (Fin n) NUM :=
  onesRow n

end adiff

namespace adiff

/-! ## Chains of layers

A layer of a chain is one of the three kinds together with its member
state; a chain is a root layer followed by chained layers, each holding a
reference to its parent, as assembled by a consumer of the header
(cf. the `NN` example class). -/

/-- One layer's kind and member state. `Layer a b` transforms width-`a`
input into width-`b` output (`out_dim = b`). -/
inductive Layer : ℕ → ℕ → Type
  | lin : LinearBase a b → Layer a b
  | tanh : TanhBase a → Layer a a
  | sum : SumBase a → Layer a 1

/-- An assembled chain with root input width `n` and tail output width `m`:
either a single Root layer, or a Chained layer holding a reference to its
parent chain. -/
inductive Chain : ℕ → ℕ → Type
  | root : Layer n m → Chain n m
  | chained : Layer a b → Chain n a → Chain n b

/-- A single layer's forward call, threading its state. -/
def Layer.forward (th : NUM → NUM) : Layer a b → (Fin a → NUM) → (Fin b → NUM) × Layer a b
  | .lin l, x => ((l.forward x).1, .lin (l.forward x).2)
  | .tanh l, x => ((TanhBase.forward th l x).1, .tanh (TanhBase.forward th l x).2)
  | .sum l, x => (fun _ => l.forward x, .sum l)

/-- Forward called root-to-tail through the chain (as the consumer does,
e.g. `l3(l2(l1(l0(x))))` in the `NN` example), threading each layer's
state. -/
def Chain.forward (th : NUM → NUM) : Chain n m → (Fin n → NUM) → (Fin m → NUM) × Chain n m
  | .root l, x => ((l.forward th x).1, .root (l.forward th x).2)
  | .chained l p, x =>
    let rp := p.forward th x
    let rl := l.forward th rp.1
    (rl.1, .chained rl.2 rp.2)

/-- The Root-specialization `backward` of each layer kind. -/
def Layer.rootBackward (th : NUM → NUM) : Layer a b → Matrix (Fin b) (Fin a) NUM
  | .lin l => Linear.rootBackward l
  | .tanh l => Tanh.rootBackward th l
  | .sum l => Sum.rootBackward l

/-- The Chained-specialization `backward` of each layer kind, with the
result of `parent_.backward()` passed in. -/
def Layer.chainedBackward (th : NUM → NUM) :
    Layer a b → Matrix (Fin a) (Fin r) NUM → Matrix (Fin b) (Fin r) NUM
  | .lin l, pb => Linear.chainedBackward l pb
  | .tanh l, pb => Tanh.chainedBackward th l pb
  | .sum l, pb => Sum.chainedBackward l pb

/-- `backward()` invoked on the tail of the chain: the tail's own variant
body, with `parent_.backward()` the recursive call on the parent chain. -/
def Chain.backward (th : NUM → NUM) : Chain n m → Matrix (Fin m) (Fin n) NUM
  | .root l => l.rootBackward th
  | .chained l p => l.chainedBackward th (p.backward th)

/-- `root_dim` of the tail layer of a chain: `n` for a Root specialization
(`static constexpr int root_dim = n;`), the parent's `root_dim` for a
Chained specialization (`static constexpr int root_dim = Layer::root_dim;`). -/
def Chain.rootDim {n m : ℕ} : Chain n m → ℕ
  | .root _ => n
  | .chained _ p => p.rootDim

/-- The `root_dim` constants of every layer in the chain, tail to root. -/
def Chain.allRootDims {n m : ℕ} : Chain n m → List ℕ
  | .root l => [(Chain.root l).rootDim]
  | .chained l p => (Chain.chained l p).rootDim :: p.allRootDims

/-- The local derivative matrix of a single layer, as each `backward` body
computes it: `W_` for Linear, `diag(1 - tanh(x_)^2)` for Tanh, the ones
row for Sum. -/
def Layer.localDeriv (th : NUM → NUM) : Layer a b → Matrix (Fin b) (Fin a) NUM
  | .lin l => l.W_
  | .tanh l => tanhLocalDeriv th l
  | .sum _ => onesRow a

/-- Modelled from the spec:
`J_tail = L_tail · L_{tail-1} · … · L_root` — the product of each layer's
local derivative matrix, composed tail-to-root by left-multiplying each
layer's local derivative into the product accumulated so far. -/
def specTailToRootProduct (th : NUM → NUM) : Chain n m → Matrix (Fin m) (Fin n) NUM
  | .root l => l.localDeriv th
  | .chained l p => l.localDeriv th * specTailToRootProduct th p

/-- The state of a Linear layer after any number of consecutive `forward`
calls with the inputs `xs`. -/
def LinearBase.forwardMany (l : LinearBase n m) (xs : List (Fin n → NUM)) :
    LinearBase n m :=
  xs.foldl (fun s x => (s.forward x).2) l

/-! ## Claims -/

/-- Claim C1: after `forward` has been called root-to-tail on an input `x`,
`backward()` on the tail layer returns the product of each layer's local
derivative matrix composed tail-to-root,
`J_tail = L_tail · L_{tail-1} · … · L_root`; each Chained layer's
`backward` equals its local derivative left-multiplied into its parent's
`backward`, and a Root layer's `backward` is its local derivative alone. -/
theorem C1_backward_tail_to_root_product (th : NUM → NUM) :
    (∀ (n m : ℕ) (c : Chain n m) (x : Fin n → NUM),
        Chain.backward th ((Chain.forward th c x).2)
          = specTailToRootProduct th ((Chain.forward th c x).2))
    ∧ (∀ (n a b : ℕ) (l : Layer a b) (p : Chain n a),
        Chain.backward th (Chain.chained l p)
          = Layer.localDeriv th l * Chain.backward th p)
    ∧ (∀ (n m : ℕ) (l : Layer n m),
        Chain.backward th (Chain.root l) = Layer.localDeriv th l) := by
  have hroot : ∀ (n m : ℕ) (l : Layer n m),
      Chain.backward th (Chain.root l) = Layer.localDeriv th l := by
    intro n m l
    cases l <;> rfl
  have hchain : ∀ (n a b : ℕ) (l : Layer a b) (p : Chain n a),
      Chain.backward th (Chain.chained l p)
        = Layer.localDeriv th l * Chain.backward th p := by
    intro n a b l p
    cases l <;> rfl
  have key : ∀ (n m : ℕ) (c : Chain n m),
      Chain.backward th c = specTailToRootProduct th c := by
    intro n m c
    induction c with
    | root l => rw [hroot]; rfl
    | chained l p ih => rw [hchain, ih]; rfl
  exact ⟨fun n m c x => key _ _ _, hchain, hroot⟩

/-- Claim C2: `forward(x)` on a Tanh layer stores `x` as the cached state,
overwriting whatever was cached before, and the next `backward()` returns
`diag(1 - tanh(x)^2)` in the Root variant and
`diag(1 - tanh(x)^2) · parent.backward()` in the Chained variant, where
`x` is the most recently forwarded input. -/
theorem C2_tanh_forward_cache_backward (th : NUM → NUM) (n r : ℕ)
    (st : TanhBase n) (x : Fin n → NUM) :
    ((TanhBase.forward th st x).2.x_ = x)
    ∧ Tanh.rootBackward th ((TanhBase.forward th st x).2)
        = Matrix.diagonal (fun i => 1 - th (x i) ^ 2)
    ∧ ∀ pb : Matrix (Fin n) (Fin r) NUM,
        Tanh.chainedBackward th ((TanhBase.forward th st x).2) pb
          = Matrix.diagonal (fun i => 1 - th (x i) ^ 2) * pb :=
  ⟨rfl, rfl, fun _ => rfl⟩

/-- Claim C3: a Linear layer's `backward()` is exactly `W` in the Root
variant and `W · parent.backward()` in the Chained variant, and `forward`
neither changes the layer's state nor, for any forwarded value, the result
of `backward`. -/
theorem C3_linear_backward_weight_only (n m r : ℕ) (st : LinearBase n m)
    (pb : Matrix (Fin n) (Fin r) NUM) (x : Fin n → NUM) :
    Linear.rootBackward st = st.W_
    ∧ Linear.chainedBackward st pb = st.W_ * pb
    ∧ (LinearBase.forward st x).2 = st
    ∧ Linear.rootBackward ((LinearBase.forward st x).2) = Linear.rootBackward st
    ∧ Linear.chainedBackward ((LinearBase.forward st x).2) pb
        = Linear.chainedBackward st pb :=
  ⟨rfl, rfl, rfl, rfl, rfl⟩

/-- Claim C4: a Linear layer's `forward(x)` returns `W·x + b`
(elementwise, `(W·x + b)_i = (∑ j, W i j * x j) + b i`); in particular
with `W = [[2, 3]]`, `b = [1]`, `x = [1, 1]` it returns `[6]`. -/
theorem C4_affine_forward_Wx_plus_b (n m : ℕ) (st : LinearBase n m)
    (x : Fin n → NUM) :
    ((LinearBase.forward st x).1 = fun i => (∑ j, st.W_ i j * x j) + st.b_ i)
    ∧ (LinearBase.forward (⟨!![2, 3], ![1]⟩ : LinearBase 2 1) ![1, 1]).1 = ![6] := by
  constructor
  · funext i
    simp [LinearBase.forward, Matrix.mulVec, Matrix.dotProduct]
  · funext i
    fin_cases i
    simp [LinearBase.forward, Matrix.mulVec, Matrix.dotProduct, Fin.sum_univ_two,
      Matrix.vecHead, Matrix.vecTail]
    norm_num

/-- Claim C5: a Sum layer's `backward()` is the `1×n` row of ones in the
Root variant and `ones(1×n) · parent.backward()` in the Chained variant,
and the result is the same no matter which input was forwarded. -/
theorem C5_sum_backward_row_of_ones (th : NUM → NUM) (n r : ℕ) (st : SumBase n)
    (pb : Matrix (Fin n) (Fin r) NUM) (x1 x2 : Fin n → NUM) :
    (∀ i j, Sum.rootBackward st i j = 1)
    ∧ Sum.chainedBackward st pb = onesRow n * pb
    ∧ Chain.backward th ((Chain.forward th (Chain.root (Layer.sum st)) x1).2)
        = Chain.backward th ((Chain.forward th (Chain.root (Layer.sum st)) x2).2) :=
  ⟨fun _ _ => rfl, rfl, rfl⟩

/-- Helper: the `root_dim` of the tail of any chain is the root's input
width. -/
theorem Chain.rootDim_eq {n m : ℕ} (c : Chain n m) : Chain.rootDim c = n := by
  induction c with
  | root _ => rfl
  | chained _ _ ih => exact ih

/-- Helper: every layer's `root_dim` constant in a chain is the root's
input width. -/
theorem Chain.allRootDims_all_eq {n m : ℕ} (c : Chain n m) :
    ∀ d ∈ Chain.allRootDims c, d = n := by
  induction c with
  | root l' =>
      intro d hd
      rw [List.mem_singleton.mp hd]
      exact Chain.rootDim_eq _
  | chained l' p' ih =>
      intro d hd
      rcases List.mem_cons.mp hd with h | h
      · rw [h]
        exact Chain.rootDim_eq _
      · exact ih d h

/-- Claim C6: `root_dim` is the same value throughout a chain and equals
the root layer's own input width; a Root variant's `root_dim` is its input
dimension, a Chained variant's is its parent's, and `forward` never
changes it (so every `backward` result, of type
`Matrix (Fin out_dim) (Fin root_dim)`, has shape `out_dim × root_dim`). -/
theorem C6_rootDim_uniform (th : NUM → NUM) (n m a b : ℕ) (c : Chain n m)
    (l : Layer n m) (l2 : Layer a b) (p : Chain n a) (x : Fin n → NUM) :
    Chain.rootDim c = n
    ∧ (∀ d ∈ Chain.allRootDims c, d = n)
    ∧ Chain.rootDim (Chain.root l) = n
    ∧ Chain.rootDim (Chain.chained l2 p) = Chain.rootDim p
    ∧ Chain.rootDim ((Chain.forward th c x).2) = Chain.rootDim c :=
  ⟨Chain.rootDim_eq c, Chain.allRootDims_all_eq c, Chain.rootDim_eq _, rfl,
    (Chain.rootDim_eq _).trans (Chain.rootDim_eq c).symm⟩

/-- Witness for C6 at a concrete two-layer chain (Tanh root of width 2,
Sum tail): the membership hypothesis of the second conjunct is discharged
at the value 2. -/
theorem C6_rootDim_uniform_witness :
    2 ∈ Chain.allRootDims (Chain.chained (Layer.sum (⟨⟩ : SumBase 2))
        (Chain.root (Layer.tanh (TanhBase.fresh fun _ => 0))))
    ∧ (2 : ℕ) = 2 := by
  have hmem : 2 ∈ Chain.allRootDims (Chain.chained (Layer.sum (⟨⟩ : SumBase 2))
      (Chain.root (Layer.tanh (TanhBase.fresh fun _ => 0)))) := by
    simp [Chain.allRootDims, Chain.rootDim]
  exact ⟨hmem, (C6_rootDim_uniform id 2 1 2 1
    (Chain.chained (Layer.sum ⟨⟩) (Chain.root (Layer.tanh (TanhBase.fresh fun _ => 0))))
    (Layer.sum ⟨⟩) (Layer.sum ⟨⟩)
    (Chain.root (Layer.tanh (TanhBase.fresh fun _ => 0))) (fun _ => 0)).2.1 2 hmem⟩

/-- Claim C7 counterexample: `backward()` on a freshly constructed Tanh
root layer (default-initialized cache, here modelled as holding the
unspecified contents `3`) raises no error: it returns the derivative
matrix `diag(1 - tanh(3)^2)` computed from that uninitialized cached
state (evaluated here with the substrate function `id`, giving
`diag(-8)`), contradicting the claim that a distinct uninitialized-state
error is raised instead of a derivative value. -/
theorem C7_counterexample :
    Tanh.rootBackward id (TanhBase.fresh (fun _ : Fin 1 => (3 : NUM)))
      = Matrix.diagonal (fun _ : Fin 1 => (-8 : NUM)) := by
  unfold Tanh.rootBackward tanhLocalDeriv TanhBase.fresh
  funext i
  norm_num

/-- Claim C7 amended: `backward()` invoked before any `forward()` is not
checked at all: it returns the value computed from the layer's current
(default-initialized) state — for a Tanh root layer
`diag(1 - tanh(g)^2)` on the unspecified initial cache contents `g`, for
a Linear root layer the current `W_` — and never raises an error. -/
theorem C7_backward_unchecked (th : NUM → NUM) (n m : ℕ) (g : Fin n → NUM)
    (stL : LinearBase n m) :
    Tanh.rootBackward th (TanhBase.fresh g)
        = Matrix.diagonal (fun i => 1 - th (g i) ^ 2)
    ∧ Linear.rootBackward stL = stL.W_ :=
  ⟨rfl, rfl⟩

/-- Claim C8: `setWeights(W, b)` replaces both parameters together and
nothing else (the resulting state is exactly `⟨W, b⟩`), and the
parameters persist unchanged across any number of `forward` calls and
through `backward`, which still returns `W`. -/
theorem C8_setWeights_replaces_and_persists (n m : ℕ) (st : LinearBase n m)
    (W : Matrix (Fin m) (Fin n) NUM) (b : Fin m → NUM)
    (xs : List (Fin n → NUM)) :
    LinearBase.setWeights st W b = ⟨W, b⟩
    ∧ LinearBase.forwardMany (LinearBase.setWeights st W b) xs
        = LinearBase.setWeights st W b
    ∧ Linear.rootBackward (LinearBase.forwardMany (LinearBase.setWeights st W b) xs)
        = W := by
  have hmany : ∀ (ys : List (Fin n → NUM)) (l : LinearBase n m),
      LinearBase.forwardMany l ys = l := by
    intro ys
    induction ys with
    | nil => intro l; rfl
    | cons y ys ih => intro l; exact ih l
  exact ⟨rfl, hmany xs _, by rw [hmany]; rfl⟩

/-- Claim C9: if the most recent `forward` on a Tanh layer received the
all-zeros vector, the local derivative matrix produced by `backward` is
exactly the identity matrix (hypothesis: the substrate's `tanh` sends `0`
to `0`, as `std::tanh` does). -/
theorem C9_tanh_zero_gives_identity (th : NUM → NUM) (h0 : th 0 = 0) (n : ℕ)
    (st : TanhBase n) :
    tanhLocalDeriv th ((TanhBase.forward th st (fun _ => 0)).2) = 1
    ∧ Tanh.rootBackward th ((TanhBase.forward th st (fun _ => 0)).2) = 1 := by
  have h : tanhLocalDeriv th ((TanhBase.forward th st (fun _ => 0)).2) = 1 := by
    unfold tanhLocalDeriv TanhBase.forward
    rw [show (fun i : Fin n => 1 - th 0 ^ 2) = fun _ => 1 by funext i; rw [h0]; ring]
    exact Matrix.diagonal_one
  exact ⟨h, h⟩

/-- Witness for C9: at `th = id` (which sends `0` to `0`), width 2, and a
layer whose previous cache held `5`, forwarding the zero vector makes the
local derivative the identity matrix. -/
theorem C9_tanh_zero_gives_identity_witness :
    id (0 : NUM) = 0
    ∧ tanhLocalDeriv id ((TanhBase.forward id
        (TanhBase.fresh (fun _ : Fin 2 => 5)) (fun _ => 0)).2) = 1 :=
  ⟨rfl, (C9_tanh_zero_gives_identity id rfl 2
    (TanhBase.fresh (fun _ : Fin 2 => 5))).1⟩

/-- Claim C10: a Sum layer holds no cached forward state at all (its state
type has a single, empty value), `forward` reads `x` and mutates nothing,
and a Root Sum layer's `backward()` is the row of ones even when
`forward` has never been called on it. -/
theorem C10_sum_no_cached_state (th : NUM → NUM) (n : ℕ) (s : SumBase n)
    (x : Fin n → NUM) :
    (∀ i j, Sum.rootBackward (⟨⟩ : SumBase n) i j = 1)
    ∧ (∀ t : SumBase n, t = ⟨⟩)
    ∧ Layer.forward th (Layer.sum s) x = ((fun _ => ∑ i, x i), Layer.sum s) := by
  refine ⟨fun _ _ => rfl, ?_, rfl⟩
  intro t
  cases t
  rfl

end adiff
